import Mathlib

/-!
Shallow embedding of `server/szurubooru/util/users.py` (user record
manager of the szurubooru image board backend), together with proofs of
the behavioural properties of its operations.

External collaborators (configuration store, credential helper, email
validator, ORM entity class) are modelled as parameters, following the
interfaces they expose to this module.
-/

namespace Szurubooru

/-- Regular expressions, modelling the patterns held in the configuration
store (`user_name_regex`, `password_regex`).  Anchors are not part of the
abstract syntax; matching is by Brzozowski derivatives. -/
inductive Regex where
  | emptyset : Regex
  | epsilon : Regex
  | char : Char → Regex
  | alt : Regex → Regex → Regex
  | cat : Regex → Regex → Regex
  | star : Regex → Regex
deriving DecidableEq, Repr

/-- Does the regex accept the empty string? -/
def Regex.nullable : Regex → Bool
  | .emptyset => false
  | .epsilon => true
  | .char _ => false
  | .alt r s => r.nullable || s.nullable
  | .cat r s => r.nullable && s.nullable
  | .star _ => true

/-- Brzozowski derivative of a regex by a character. -/
def Regex.deriv : Regex → Char → Regex
  | .emptyset, _ => .emptyset
  | .epsilon, _ => .emptyset
  | .char c, a => if c = a then .epsilon else .emptyset
  | .alt r s, a => .alt (r.deriv a) (s.deriv a)
  | .cat r s, a =>
      if r.nullable then .alt (.cat (r.deriv a) s) (s.deriv a)
      else .cat (r.deriv a) s
  | .star r, a => .cat (r.deriv a) (.star r)

/-- Full match of a regex against a character list. -/
def Regex.rmatchL : Regex → List Char → Bool
  | r, [] => r.nullable
  | r, c :: cs => (r.deriv c).rmatchL cs

/-- Full match of a regex against a string. -/
def Regex.rmatch (r : Regex) (s : String) : Bool :=
  r.rmatchL s.data

/-- Python's `re.match(r, s)`: true iff some prefix of `s` (possibly the
empty one) fully matches `r`.  This is the semantics `update_name` and
`update_password` use: the match is anchored only at the start. -/
def Regex.pyMatchL : Regex → List Char → Bool
  | r, [] => r.nullable
  | r, c :: cs => r.nullable || (r.deriv c).pyMatchL cs

/-- `re.match` on a string. -/
def Regex.pyMatch (r : Regex) (s : String) : Bool :=
  r.pyMatchL s.data

/-- The avatar styles of `db.User`; only `AVATAR_GRAVATAR` is used here. -/
inductive AvatarStyle where
  | gravatar : AvatarStyle
deriving DecidableEq, Repr

/-- The errors the module can raise: `errors.ValidationError`,
`errors.AuthError` (the spec's AuthorizationError), and Python's built-in
`ValueError` raised by `list.index` on an absent element.  Message
payloads carry the static part of the Python format strings. -/
inductive Err where
  | validationError : String → Err
  | authError : String → Err
  | valueError : String → Err
deriving DecidableEq, Repr

/-- The `db.User` ORM entity.  A freshly constructed `db.User()` has every
column attribute unset, modelled as `none`. -/
structure User where
  name : Option String := none
  password_salt : Option String := none
  password_hash : Option String := none
  email : Option String := none
  access_rank : Option String := none
  creation_time : Option Nat := none
  last_login_time : Option Nat := none
  avatar_style : Option AvatarStyle := none
deriving DecidableEq, Repr

/-- `db.User()`: a fresh entity with all attributes unset. -/
def User.new : User := {}

/-- The slice of `config.config['service']` this module reads. -/
structure Config where
  user_name_regex : Regex
  password_regex : Regex
  default_user_rank : String
  user_ranks : List String
deriving DecidableEq, Repr

/-- The external credential helper (`szurubooru.util.auth`) and email
validator (`szurubooru.util.misc`), as the interfaces they expose.
`is_valid_email_some` is the validator's verdict on a present address;
fresh random values from `auth.create_password()` are passed explicitly
to each operation that draws them. -/
structure Ext where
  get_password_hash : String → String → String
  is_valid_email_some : String → Bool

/-- Modelled from the spec: `misc.is_valid_email` is not under `src/`
(only its caller `update_email` is).  Per the spec, the email field "is
either `null` or passes validation" and `updateEmail("")` succeeds with
`email = null`, so the validator accepts the absent value `None`; on a
present address it is the external helper's verdict. -/
def is_valid_email (ext : Ext) : Option String → Bool
  | none => true
  | some e => ext.is_valid_email_some e

/-- Python's `str.strip()` with no argument: remove leading and trailing
whitespace. -/
def pyStrip (s : String) : String :=
  ⟨(((s.data.dropWhile Char.isWhitespace).reverse.dropWhile
      Char.isWhitespace).reverse)⟩

/-- Python's `email.strip() or None`: trim, and turn the empty string
into the absent value. -/
def strip_or_none (email : String) : Option String :=
  let e := pyStrip email
  if e = "" then none else some e

/-- Index of the first occurrence of `x` in `l`, or `none` if absent. -/
def listIndex (l : List String) (x : String) : Option Nat :=
  match l with
  | [] => none
  | y :: ys => if y = x then some 0 else (listIndex ys x).map (· + 1)

/-- Python's `l.index(x)` on an optional value: raises `ValueError` when
the value is `None` (a list of strings never contains `None`) or when it
does not occur in the list. -/
def pyIndex (l : List String) : Option String → Except Err Nat
  | none => .error (.valueError "is not in list")
  | some x =>
      match listIndex l x with
      | some i => .ok i
      | none => .error (.valueError "is not in list")

/-- An operation's outcome: a successfully updated user, or an error
paired with the user's state at the moment the exception was raised (the
Python functions mutate the entity in place, so that state is what a
caller observes after catching the exception). -/
abbrev OpResult := Except (Err × User) User

instance : DecidableEq OpResult := fun a b =>
  match a, b with
  | .ok x, .ok y => decidable_of_iff (x = y) (by simp)
  | .error x, .error y => decidable_of_iff (x = y) (by simp)
  | .ok _, .error _ => isFalse (by simp)
  | .error _, .ok _ => isFalse (by simp)

/-- `update_name(user, name)`: trim, validate against the configured
regex via `re.match`, then assign `user.name`. -/
def update_name (cfg : Config) (u : User) (name : String) : OpResult :=
  let name := pyStrip name
  if cfg.user_name_regex.pyMatch name then
    .ok { u with name := some name }
  else
    .error (.validationError "Name must satisfy regex %r.", u)

/-- `update_password(user, password)`: validate (no trimming) against the
configured regex via `re.match`, then assign a fresh salt (`salt`, drawn
from `auth.create_password()`) and the helper's hash of that salt with
the password. -/
def update_password (cfg : Config) (ext : Ext) (salt : String)
    (u : User) (password : String) : OpResult :=
  if cfg.password_regex.pyMatch password then
    let u := { u with password_salt := some salt }
    .ok { u with password_hash := some (ext.get_password_hash salt password) }
  else
    .error (.validationError "Password must satisfy regex %r.", u)

/-- `update_email(user, email)`: trim, treat the empty string as `None`,
validate, then assign `user.email`. -/
def update_email (ext : Ext) (u : User) (email : String) : OpResult :=
  let e := strip_or_none email
  if is_valid_email ext e then
    .ok { u with email := e }
  else
    .error (.validationError "is not a vaild email address.", u)

/-- `update_rank(user, rank, authenticated_user)`: trim, check membership
in the configured rank list (`ValidationError` if absent), then compare
list positions — `list.index` on the authenticated user's rank first
(which raises `ValueError` if that rank is absent or unset), then on the
requested rank — raising `AuthError` when the requester's position is
strictly lower; otherwise assign `user.access_rank`. -/
def update_rank (cfg : Config) (u : User) (rank : String)
    (authenticated_user : User) : OpResult :=
  let rank := pyStrip rank
  if rank ∈ cfg.user_ranks then
    match pyIndex cfg.user_ranks authenticated_user.access_rank with
    | .error e => .error (e, u)
    | .ok i =>
        match pyIndex cfg.user_ranks (some rank) with
        | .error e => .error (e, u)
        | .ok j =>
            if i < j then
              .error (.authError "Trying to set higher access rank than one has", u)
            else
              .ok { u with access_rank := some rank }
  else
    .error (.validationError "Bad access rank. Valid access ranks: %r", u)

/-- `create_user(name, password, email)`: build a fresh `db.User()`, run
the three update operations, then stamp default rank, creation time
(`now`, from `datetime.now()`) and avatar style.  `salt` is the fresh
value `update_password` draws from `auth.create_password()`. -/
def create_user (cfg : Config) (ext : Ext) (salt : String) (now : Nat)
    (name password email : String) : OpResult :=
  match update_name cfg User.new name with
  | .error p => .error p
  | .ok u =>
    match update_password cfg ext salt u password with
    | .error p => .error p
    | .ok u =>
      match update_email ext u email with
      | .error p => .error p
      | .ok u =>
        .ok { u with access_rank := some cfg.default_user_rank,
                     creation_time := some now,
                     avatar_style := some .gravatar }

/-- `bump_login_time(user)`: set `last_login_time` to the current time. -/
def bump_login_time (now : Nat) (u : User) : User :=
  { u with last_login_time := some now }

/-- `reset_password(user)`: draw a fresh plaintext password (`p`, the
first `auth.create_password()` call) and a fresh salt (`s`, the second
call), store the salt and the hash of salt and plaintext, and return the
plaintext. -/
def reset_password (ext : Ext) (p s : String) (u : User) : String × User :=
  let u := { u with password_salt := some s }
  let u := { u with password_hash := some (ext.get_password_hash s p) }
  (p, u)

/-- Did the operation raise a `ValidationError`? -/
def isValidation : OpResult → Bool
  | .error (.validationError _, _) => true
  | _ => false

/-- Did the operation raise an `AuthError`? -/
def isAuth : OpResult → Bool
  | .error (.authError _, _) => true
  | _ => false

/-- Did the operation succeed? -/
def isOk : OpResult → Bool
  | .ok _ => true
  | _ => false

/-- The user state carried by a raised error, if any. -/
def errState : OpResult → Option User
  | .error (_, u) => some u
  | .ok _ => none

/-- The resulting user on success, if any. -/
def okUser : OpResult → Option User
  | .ok u => some u
  | .error _ => none

/-- Is the string stored in some (string-valued) field of the user? -/
def storedIn (s : String) (u : User) : Prop :=
  u.name = some s ∨ u.password_salt = some s ∨ u.password_hash = some s ∨
  u.email = some s ∨ u.access_rank = some s

instance (s : String) (u : User) : Decidable (storedIn s u) := by
  unfold storedIn; infer_instance

end Szurubooru

namespace Szurubooru

/-! ### Helper lemmas -/

theorem listIndex_eq_none_iff (l : List String) (x : String) :
    listIndex l x = none ↔ x ∉ l := by
  induction l with
  | nil => simp [listIndex]
  | cons y ys ih =>
      by_cases h : y = x
      · simp [listIndex, h]
      · simp [listIndex, h, Option.map_eq_none', ih, Ne.symm h]

theorem exists_listIndex_of_mem {l : List String} {x : String}
    (h : x ∈ l) : ∃ i, listIndex l x = some i := by
  rcases ho : listIndex l x with _ | i
  · exact absurd ((listIndex_eq_none_iff l x).mp ho) (by simpa using h)
  · exact ⟨i, rfl⟩

theorem pyIndex_some {l : List String} {x : String} {i : Nat}
    (h : listIndex l x = some i) : pyIndex l (some x) = .ok i := by
  simp [pyIndex, h]

theorem pyMatchL_of_prefix {r : Regex} {p l : List Char}
    (h : r.rmatchL p = true) (hpre : p <+: l) : r.pyMatchL l = true := by
  induction p generalizing r l with
  | nil =>
      cases l with
      | nil => simpa [Regex.pyMatchL, Regex.rmatchL] using h
      | cons c cs =>
          simp only [Regex.rmatchL] at h
          simp [Regex.pyMatchL, h]
  | cons c p ih =>
      cases l with
      | nil => simp at hpre
      | cons d l =>
          rw [List.cons_prefix_cons] at hpre
          obtain ⟨rfl, hpre⟩ := hpre
          simp only [Regex.rmatchL] at h
          simp [Regex.pyMatchL, ih h hpre]

/-- `update_rank` when the trimmed rank is not in the configured list. -/
theorem update_rank_not_mem {cfg : Config} {u au : User} {rank : String}
    (hmem : pyStrip rank ∉ cfg.user_ranks) :
    update_rank cfg u rank au =
      .error (.validationError "Bad access rank. Valid access ranks: %r", u) := by
  simp [update_rank, hmem]

/-- `update_rank` when the trimmed rank is in the list and the
authenticated user's rank has a position: the outcome is decided by
comparing the two positions. -/
theorem update_rank_mem {cfg : Config} {u au : User} {rank ar : String}
    {i j : Nat} (hau : au.access_rank = some ar)
    (hi : listIndex cfg.user_ranks ar = some i)
    (hmem : pyStrip rank ∈ cfg.user_ranks)
    (hj : listIndex cfg.user_ranks (pyStrip rank) = some j) :
    update_rank cfg u rank au =
      if i < j then
        .error (.authError "Trying to set higher access rank than one has", u)
      else
        .ok { u with access_rank := some (pyStrip rank) } := by
  rw [update_rank, if_pos hmem, hau, pyIndex_some hi, pyIndex_some hj]

end Szurubooru

namespace Szurubooru

/-! ### Shape lemmas for each operation -/

theorem update_name_error_eq {cfg : Config} {u v : User} {n : String}
    {e : Err} (h : update_name cfg u n = .error (e, v)) :
    e = .validationError "Name must satisfy regex %r." ∧ v = u := by
  unfold update_name at h
  dsimp only at h
  split at h <;> simp_all

theorem update_password_error_eq {cfg : Config} {ext : Ext}
    {salt : String} {u v : User} {pw : String} {e : Err}
    (h : update_password cfg ext salt u pw = .error (e, v)) :
    e = .validationError "Password must satisfy regex %r." ∧ v = u := by
  unfold update_password at h
  split at h <;> simp_all

theorem update_email_error_eq {ext : Ext} {u v : User} {em : String}
    {e : Err} (h : update_email ext u em = .error (e, v)) :
    e = .validationError "is not a vaild email address." ∧ v = u := by
  unfold update_email at h
  dsimp only at h
  split at h <;> simp_all

theorem update_rank_error_state {cfg : Config} {u au v : User}
    {rank : String} {e : Err}
    (h : update_rank cfg u rank au = .error (e, v)) : v = u := by
  unfold update_rank at h
  dsimp only at h
  split at h
  · split at h
    · simp_all
    · split at h
      · simp_all
      · split at h <;> simp_all
  · simp_all

theorem update_name_ok_eq {cfg : Config} {u v : User} {n : String}
    (h : update_name cfg u n = .ok v) :
    v = { u with name := some (pyStrip n) } := by
  unfold update_name at h
  dsimp only at h
  split at h <;> simp_all

theorem update_password_ok_eq {cfg : Config} {ext : Ext} {salt : String}
    {u v : User} {pw : String}
    (h : update_password cfg ext salt u pw = .ok v) :
    v = { u with password_salt := some salt,
                 password_hash := some (ext.get_password_hash salt pw) } := by
  unfold update_password at h
  split at h <;> simp_all

theorem update_email_ok_eq {ext : Ext} {u v : User} {em : String}
    (h : update_email ext u em = .ok v) :
    v = { u with email := strip_or_none em } := by
  unfold update_email at h
  dsimp only at h
  split at h <;> simp_all

theorem update_rank_ok_eq {cfg : Config} {u au v : User} {rank : String}
    (h : update_rank cfg u rank au = .ok v) :
    v = { u with access_rank := some (pyStrip rank) } ∧
    pyStrip rank ∈ cfg.user_ranks := by
  unfold update_rank at h
  dsimp only at h
  split at h
  · split at h
    · simp_all
    · split at h
      · simp_all
      · split at h <;> simp_all
  · simp_all

/-! ### Concrete fixtures used by witnesses -/

/-- A configuration whose regexes accept every input (as `re.match("", s)`
does) and whose rank list is the four-rank ladder. -/
def cfgW : Config :=
  { user_name_regex := .epsilon
    password_regex := .epsilon
    default_user_rank := "regular"
    user_ranks := ["anonymous", "regular", "mod", "admin"] }

/-- A configuration whose name and password regexes are the single
character `a`. -/
def cfgA : Config :=
  { user_name_regex := .char 'a'
    password_regex := .char 'a'
    default_user_rank := "regular"
    user_ranks := ["anonymous", "regular", "mod", "admin"] }

/-- A concrete credential helper / email validator. -/
def extW : Ext :=
  { get_password_hash := fun s p => s ++ ":" ++ p
    is_valid_email_some := fun e => e.data.contains '@' }

/-- An acting user holding the `mod` rank. -/
def auMod : User := { User.new with access_rank := some "mod" }

end Szurubooru

namespace Szurubooru

/-- C1: `update_rank` first trims the rank; it raises `ValidationError`
iff the trimmed rank is not in the configured rank list; otherwise it
raises `AuthError` iff the position of the acting user's access rank in
the list is strictly lower than the position of the requested rank, and
otherwise sets `access_rank` to the trimmed rank; in particular every
request for a rank at a position at or below the acting user's position
succeeds. -/
theorem update_rank_spec (cfg : Config) (u au : User) (rank ar : String)
    (i : Nat) (hau : au.access_rank = some ar)
    (hi : listIndex cfg.user_ranks ar = some i) :
    (isValidation (update_rank cfg u rank au) = true ↔
      pyStrip rank ∉ cfg.user_ranks) ∧
    (∀ j, listIndex cfg.user_ranks (pyStrip rank) = some j →
      ((isAuth (update_rank cfg u rank au) = true ↔ i < j) ∧
       (j ≤ i → update_rank cfg u rank au =
          .ok { u with access_rank := some (pyStrip rank) }))) := by
  constructor
  · by_cases hmem : pyStrip rank ∈ cfg.user_ranks
    · obtain ⟨j, hj⟩ := exists_listIndex_of_mem hmem
      rw [update_rank_mem hau hi hmem hj]
      by_cases hij : i < j
      · simp [hij, isValidation, hmem]
      · simp [hij, isValidation, hmem]
    · rw [update_rank_not_mem hmem]
      simp [isValidation, hmem]
  · intro j hj
    have hmem : pyStrip rank ∈ cfg.user_ranks := by
      by_contra hmem
      rw [(listIndex_eq_none_iff _ _).mpr hmem] at hj
      exact Option.noConfusion hj
    rw [update_rank_mem hau hi hmem hj]
    constructor
    · by_cases hij : i < j
      · simp [hij, isAuth]
      · simp [hij, isAuth]
    · intro hji
      rw [if_neg (Nat.not_lt.mpr hji)]

/-- C1 witness: with ranks `[anonymous, regular, mod, admin]` and an
acting user of rank `mod` (position 2), requesting `" regular "`
(position 1 after trimming) succeeds and sets the rank. -/
theorem update_rank_spec_witness :
    auMod.access_rank = some "mod" ∧
    listIndex cfgW.user_ranks "mod" = some 2 ∧
    listIndex cfgW.user_ranks (pyStrip " regular ") = some 1 ∧
    update_rank cfgW User.new " regular " auMod =
      .ok { User.new with access_rank := some (pyStrip " regular ") } :=
  ⟨by decide, by decide, by decide,
    ((update_rank_spec cfgW User.new auMod " regular " "mod" 2
      (by decide) (by decide)).2 1 (by decide)).2 (by decide)⟩

end Szurubooru

namespace Szurubooru

/-! ### C2 -/

theorem create_user_ok_or_validation (cfg : Config) (ext : Ext)
    (salt : String) (now : Nat) (name password email : String) :
    isOk (create_user cfg ext salt now name password email) = true ∨
    isValidation (create_user cfg ext salt now name password email) = true := by
  unfold create_user
  rcases h1 : update_name cfg User.new name with ⟨e1, w1⟩ | v1
  · right
    obtain ⟨rfl, rfl⟩ := update_name_error_eq h1
    simp [h1, isValidation]
  · rcases h2 : update_password cfg ext salt v1 password with ⟨e2, w2⟩ | v2
    · right
      obtain ⟨rfl, rfl⟩ := update_password_error_eq h2
      simp [h1, h2, isValidation]
    · rcases h3 : update_email ext v2 email with ⟨e3, w3⟩ | v3
      · right
        obtain ⟨rfl, rfl⟩ := update_email_error_eq h3
        simp [h1, h2, h3, isValidation]
      · left
        simp [h1, h2, h3, isOk]

theorem update_name_ok_or_validation (cfg : Config) (u : User)
    (name : String) :
    isOk (update_name cfg u name) = true ∨
    isValidation (update_name cfg u name) = true := by
  rcases h : update_name cfg u name with ⟨e, w⟩ | v
  · right
    obtain ⟨rfl, rfl⟩ := update_name_error_eq h
    simp [h, isValidation]
  · left
    simp [h, isOk]

theorem update_password_ok_or_validation (cfg : Config) (ext : Ext)
    (salt : String) (u : User) (password : String) :
    isOk (update_password cfg ext salt u password) = true ∨
    isValidation (update_password cfg ext salt u password) = true := by
  rcases h : update_password cfg ext salt u password with ⟨e, w⟩ | v
  · right
    obtain ⟨rfl, rfl⟩ := update_password_error_eq h
    simp [h, isValidation]
  · left
    simp [h, isOk]

theorem update_email_ok_or_validation (ext : Ext) (u : User)
    (email : String) :
    isOk (update_email ext u email) = true ∨
    isValidation (update_email ext u email) = true := by
  rcases h : update_email ext u email with ⟨e, w⟩ | v
  · right
    obtain ⟨rfl, rfl⟩ := update_email_error_eq h
    simp [h, isValidation]
  · left
    simp [h, isOk]

/-- C2 counterexample: an acting user whose stored rank `"boss"` is not
in the configured rank list makes `update_rank` raise `ValueError`
(from `list.index`), which is neither a `ValidationError` nor an
`AuthError`, so not every failure of these operations is of one of the
two documented kinds. -/
theorem update_rank_valueError_counterexample :
    update_rank cfgW User.new "admin" { User.new with access_rank := some "boss" } =
      .error (.valueError "is not in list", User.new) ∧
    isOk (update_rank cfgW User.new "admin"
      { User.new with access_rank := some "boss" }) = false ∧
    isValidation (update_rank cfgW User.new "admin"
      { User.new with access_rank := some "boss" }) = false ∧
    isAuth (update_rank cfgW User.new "admin"
      { User.new with access_rank := some "boss" }) = false := by
  decide

/-- C2 (amended): provided the acting user's stored access rank is a
member of the configured rank list, every failure of `create_user`,
`update_name`, `update_password`, `update_email` and `update_rank` is a
`ValidationError` or an `AuthError`. -/
theorem ops_fail_only_validation_or_auth (cfg : Config) (ext : Ext)
    (salt : String) (now : Nat) (u au : User)
    (name password email rank ar : String)
    (hau : au.access_rank = some ar) (hmem : ar ∈ cfg.user_ranks) :
    (isOk (create_user cfg ext salt now name password email) = true ∨
     isValidation (create_user cfg ext salt now name password email) = true) ∧
    (isOk (update_name cfg u name) = true ∨
     isValidation (update_name cfg u name) = true) ∧
    (isOk (update_password cfg ext salt u password) = true ∨
     isValidation (update_password cfg ext salt u password) = true) ∧
    (isOk (update_email ext u email) = true ∨
     isValidation (update_email ext u email) = true) ∧
    (isOk (update_rank cfg u rank au) = true ∨
     isValidation (update_rank cfg u rank au) = true ∨
     isAuth (update_rank cfg u rank au) = true) := by
  refine ⟨create_user_ok_or_validation cfg ext salt now name password email,
    update_name_ok_or_validation cfg u name,
    update_password_ok_or_validation cfg ext salt u password,
    update_email_ok_or_validation ext u email, ?_⟩
  obtain ⟨i, hi⟩ := exists_listIndex_of_mem hmem
  by_cases hr : pyStrip rank ∈ cfg.user_ranks
  · obtain ⟨j, hj⟩ := exists_listIndex_of_mem hr
    rw [update_rank_mem hau hi hr hj]
    by_cases hij : i < j
    · simp [hij, isAuth]
    · simp [hij, isOk]
  · rw [update_rank_not_mem hr]
    simp [isValidation]

/-- C2 witness: the amended statement applied to the all-accepting
configuration, an acting user of rank `mod`, and concrete inputs on
which every operation succeeds. -/
theorem ops_fail_only_validation_or_auth_witness :
    auMod.access_rank = some "mod" ∧ "mod" ∈ cfgW.user_ranks ∧
    (isOk (update_rank cfgW User.new "admin" auMod) = true ∨
     isValidation (update_rank cfgW User.new "admin" auMod) = true ∨
     isAuth (update_rank cfgW User.new "admin" auMod) = true) :=
  ⟨by decide, by decide,
    (ops_fail_only_validation_or_auth cfgW extW "SALT" 7 User.new auMod
      "alice" "pw" "a@b.c" "admin" "mod" (by decide) (by decide)).2.2.2.2⟩

end Szurubooru

namespace Szurubooru

/-- C3: `update_email` on an input that trims to the empty string
succeeds and sets the email field to the absent value. -/
theorem update_email_blank (ext : Ext) (u : User) (s : String)
    (h : pyStrip s = "") :
    update_email ext u s = .ok { u with email := none } := by
  have hs : strip_or_none s = none := by simp [strip_or_none, h]
  simp [update_email, hs, is_valid_email]

/-- C3 witness: the empty string and the three-space string both trim to
empty and both set `email` to the absent value. -/
theorem update_email_blank_witness :
    pyStrip "" = "" ∧ pyStrip "   " = "" ∧
    update_email extW User.new "" = .ok { User.new with email := none } ∧
    update_email extW User.new "   " = .ok { User.new with email := none } :=
  ⟨by decide, by decide, update_email_blank extW User.new "" (by decide),
    update_email_blank extW User.new "   " (by decide)⟩

/-- C4: for a password matching the configured regex, `update_password`
stores the fresh salt and exactly the credential helper's hash of that
salt with the original password; when the fresh salt differs from the
stored one, the stored salt/hash pair changes.  `reset_password` returns
the fresh plaintext, stores the second fresh value as salt and the hash
of that salt with the plaintext, and — provided the plaintext differs
from the fresh salt, from its own hash and from the user's other string
fields — the plaintext is stored in no field of the user. -/
theorem password_update_and_reset_spec (cfg : Config) (ext : Ext)
    (salt : String) (u : User) (password : String)
    (hpw : cfg.password_regex.pyMatch password = true)
    (hfresh : some salt ≠ u.password_salt)
    (p s : String) (hps : p ≠ s)
    (hph : ext.get_password_hash s p ≠ p)
    (hname : u.name ≠ some p) (hemail : u.email ≠ some p)
    (hrank : u.access_rank ≠ some p) :
    (update_password cfg ext salt u password =
      .ok { u with password_salt := some salt,
                   password_hash := some (ext.get_password_hash salt password) }) ∧
    ((some salt, some (ext.get_password_hash salt password)) ≠
      (u.password_salt, u.password_hash)) ∧
    ((reset_password ext p s u).1 = p) ∧
    ((reset_password ext p s u).2.password_salt = some s) ∧
    ((reset_password ext p s u).2.password_hash =
      some (ext.get_password_hash s p)) ∧
    ¬ storedIn p (reset_password ext p s u).2 := by
  refine ⟨by simp [update_password, hpw], ?_, rfl, rfl, rfl, ?_⟩
  · intro hpair
    exact hfresh (congrArg Prod.fst hpair)
  · simp only [reset_password, storedIn]
    push_neg
    exact ⟨hname, by simpa using (Ne.symm hps), by simpa using hph,
      hemail, hrank⟩

/-- C4 witness: concrete credential helper, fresh values, and a user with
no previous credential material. -/
theorem password_update_and_reset_spec_witness :
    (update_password cfgW extW "S1" User.new "pw" =
      .ok { User.new with password_salt := some "S1",
                          password_hash := some (extW.get_password_hash "S1" "pw") }) ∧
    ((some "S1", some (extW.get_password_hash "S1" "pw")) ≠
      (User.new.password_salt, User.new.password_hash)) ∧
    ((reset_password extW "PLAIN" "S2" User.new).1 = "PLAIN") ∧
    ((reset_password extW "PLAIN" "S2" User.new).2.password_salt = some "S2") ∧
    ((reset_password extW "PLAIN" "S2" User.new).2.password_hash =
      some (extW.get_password_hash "S2" "PLAIN")) ∧
    ¬ storedIn "PLAIN" (reset_password extW "PLAIN" "S2" User.new).2 :=
  password_update_and_reset_spec cfgW extW "S1" User.new "pw" (by decide)
    (by decide) "PLAIN" "S2" (by decide) (by decide) (by decide) (by decide)
    (by decide)

/-- C5: when the trimmed name does not match the configured name regex,
`update_name` raises `ValidationError` and the user record carried by the
error is exactly the untouched input user. -/
theorem update_name_invalid (cfg : Config) (u : User) (name : String)
    (h : cfg.user_name_regex.pyMatch (pyStrip name) = false) :
    update_name cfg u name =
      .error (.validationError "Name must satisfy regex %r.", u) := by
  simp [update_name, h]

/-- C5 witness: against the single-character regex `a`, the name `"b"`
fails validation and the user is unchanged. -/
theorem update_name_invalid_witness :
    cfgA.user_name_regex.pyMatch (pyStrip "b") = false ∧
    update_name cfgA User.new "b" =
      .error (.validationError "Name must satisfy regex %r.", User.new) :=
  ⟨by decide, update_name_invalid cfgA User.new "b" (by decide)⟩

/-- C6: whenever one of the four update operations fails, the user state
carried by the raised error is exactly the input user: validation
precedes every mutation, so a failed call mutates nothing. -/
theorem update_ops_atomic_on_failure (cfg : Config) (ext : Ext)
    (salt : String) (u au : User) (name password email rank : String) :
    (isOk (update_name cfg u name) = false →
      errState (update_name cfg u name) = some u) ∧
    (isOk (update_password cfg ext salt u password) = false →
      errState (update_password cfg ext salt u password) = some u) ∧
    (isOk (update_email ext u email) = false →
      errState (update_email ext u email) = some u) ∧
    (isOk (update_rank cfg u rank au) = false →
      errState (update_rank cfg u rank au) = some u) := by
  refine ⟨?_, ?_, ?_, ?_⟩
  · intro hf
    rcases h : update_name cfg u name with ⟨e, w⟩ | v
    · obtain ⟨-, rfl⟩ := update_name_error_eq h
      simp [h, errState]
    · simp [h, isOk] at hf
  · intro hf
    rcases h : update_password cfg ext salt u password with ⟨e, w⟩ | v
    · obtain ⟨-, rfl⟩ := update_password_error_eq h
      simp [h, errState]
    · simp [h, isOk] at hf
  · intro hf
    rcases h : update_email ext u email with ⟨e, w⟩ | v
    · obtain ⟨-, rfl⟩ := update_email_error_eq h
      simp [h, errState]
    · simp [h, isOk] at hf
  · intro hf
    rcases h : update_rank cfg u rank au with ⟨e, w⟩ | v
    · have := update_rank_error_state h
      subst this
      simp [h, errState]
    · simp [h, isOk] at hf

/-- C6 witness: a failing `update_name` call carries back the untouched
input user. -/
theorem update_ops_atomic_on_failure_witness :
    isOk (update_name cfgA User.new "b") = false ∧
    errState (update_name cfgA User.new "b") = some User.new :=
  ⟨by decide, (update_ops_atomic_on_failure cfgA extW "S" User.new auMod
    "b" "pw" "e" "r").1 (by decide)⟩

end Szurubooru

namespace Szurubooru

theorem create_user_ok_access {cfg : Config} {ext : Ext} {salt : String}
    {now : Nat} {name password email : String} {v : User}
    (h : create_user cfg ext salt now name password email = .ok v) :
    v.access_rank = some cfg.default_user_rank := by
  unfold create_user at h
  split at h
  · simp at h
  · split at h
    · simp at h
    · split at h
      · simp at h
      · injection h with h
        subst h
        rfl

/-- C7: provided the configured default rank is in the configured rank
list, every user returned by `create_user` and every user successfully
updated by `update_rank` carries an access rank that is a member of the
configured rank list (for `create_user` it is exactly the default). -/
theorem access_rank_invariant (cfg : Config) (ext : Ext) (salt : String)
    (now : Nat) (name password email rank : String) (u au v1 v2 : User)
    (hdef : cfg.default_user_rank ∈ cfg.user_ranks) :
    (create_user cfg ext salt now name password email = .ok v1 →
      v1.access_rank = some cfg.default_user_rank ∧
      ∃ r, v1.access_rank = some r ∧ r ∈ cfg.user_ranks) ∧
    (update_rank cfg u rank au = .ok v2 →
      ∃ r, v2.access_rank = some r ∧ r ∈ cfg.user_ranks) := by
  constructor
  · intro h
    have ha := create_user_ok_access h
    exact ⟨ha, cfg.default_user_rank, ha, hdef⟩
  · intro h
    obtain ⟨rfl, hmem⟩ := update_rank_ok_eq h
    exact ⟨pyStrip rank, rfl, hmem⟩

/-- The user `create_user cfgW extW "SALT" 7 "alice" "pw" "a@b.c"`
produces. -/
def uAlice : User :=
  { name := some "alice", password_salt := some "SALT",
    password_hash := some "SALT:pw", email := some "a@b.c",
    access_rank := some "regular", creation_time := some 7,
    last_login_time := none, avatar_style := some .gravatar }

/-- C7 witness: under the concrete configuration the default rank is in
the list and the created user's rank is a member of the list. -/
theorem access_rank_invariant_witness :
    cfgW.default_user_rank ∈ cfgW.user_ranks ∧
    (∃ r, uAlice.access_rank = some r ∧ r ∈ cfgW.user_ranks) :=
  ⟨by decide,
    ((access_rank_invariant cfgW extW "SALT" 7 "alice" "pw" "a@b.c" "x"
      User.new auMod uAlice User.new (by decide)).1 (by decide)).2⟩

/-- C8: whenever the configured regexes accept `"alice"` and
`"ValidP@ss1"` and the email validator accepts `"a@example.com"`,
`create_user "alice" "ValidP@ss1" "a@example.com"` succeeds with name
`"alice"`, that (non-null) email, the configured default rank, and a
non-null creation time. -/
theorem create_user_alice (cfg : Config) (ext : Ext) (salt : String)
    (now : Nat)
    (hname : cfg.user_name_regex.pyMatch "alice" = true)
    (hpw : cfg.password_regex.pyMatch "ValidP@ss1" = true)
    (hemail : ext.is_valid_email_some "a@example.com" = true) :
    ∃ v, create_user cfg ext salt now "alice" "ValidP@ss1" "a@example.com" =
        .ok v ∧
      v.name = some "alice" ∧ v.email = some "a@example.com" ∧
      v.access_rank = some cfg.default_user_rank ∧
      v.creation_time = some now ∧ v.creation_time ≠ none := by
  have hstrip : pyStrip "alice" = "alice" := by decide
  have h1 : update_name cfg User.new "alice" =
      .ok { User.new with name := some "alice" } := by
    simp [update_name, hstrip, hname]
  have h2 : update_password cfg ext salt
      { User.new with name := some "alice" } "ValidP@ss1" =
      .ok { User.new with
            name := some "alice"
            password_salt := some salt
            password_hash := some (ext.get_password_hash salt "ValidP@ss1") } := by
    simp [update_password, hpw]
  have hs : strip_or_none "a@example.com" = some "a@example.com" := by decide
  have h3 : update_email ext
      { User.new with
        name := some "alice"
        password_salt := some salt
        password_hash := some (ext.get_password_hash salt "ValidP@ss1") }
      "a@example.com" =
      .ok { User.new with
            name := some "alice"
            password_salt := some salt
            password_hash := some (ext.get_password_hash salt "ValidP@ss1")
            email := some "a@example.com" } := by
    simp [update_email, hs, is_valid_email, hemail]
  refine ⟨{ User.new with
            name := some "alice"
            password_salt := some salt
            password_hash := some (ext.get_password_hash salt "ValidP@ss1")
            email := some "a@example.com"
            access_rank := some cfg.default_user_rank
            creation_time := some now
            avatar_style := some .gravatar }, ?_, rfl, rfl, rfl, rfl, by simp⟩
  unfold create_user
  rw [h1]
  dsimp only
  rw [h2]
  dsimp only
  rw [h3]

/-- C8 witness: the concrete configuration and helper accept all three
inputs, and the call produces the expected user. -/
theorem create_user_alice_witness :
    ∃ v, create_user cfgW extW "SALT" 7 "alice" "ValidP@ss1" "a@example.com" =
        .ok v ∧
      v.name = some "alice" ∧ v.email = some "a@example.com" ∧
      v.access_rank = some cfgW.default_user_rank ∧
      v.creation_time = some 7 ∧ v.creation_time ≠ none :=
  create_user_alice cfgW extW "SALT" 7 (by decide) (by decide) (by decide)

/-- C9: `re.match` anchors only at the start: if some prefix of the
trimmed name fully matches the configured name regex, `update_name`
accepts it, and if some prefix of the password fully matches the
configured password regex, `update_password` accepts it — whether or not
the whole string matches. -/
theorem prefix_match_accepted (cfg : Config) (ext : Ext) (salt : String)
    (u : User) (name password : String) (p q : List Char)
    (hp : cfg.user_name_regex.rmatchL p = true)
    (hpre : p <+: (pyStrip name).data)
    (hq : cfg.password_regex.rmatchL q = true)
    (hqre : q <+: password.data) :
    isOk (update_name cfg u name) = true ∧
    isOk (update_password cfg ext salt u password) = true := by
  constructor
  · have hm := pyMatchL_of_prefix hp hpre
    simp [update_name, Regex.pyMatch, hm, isOk]
  · have hm := pyMatchL_of_prefix hq hqre
    simp [update_password, Regex.pyMatch, hm, isOk]

/-- C9 witness: with the regex `a`, the input `"ab"` does not fully
match, yet its prefix `"a"` does, and both operations accept `"ab"`. -/
theorem prefix_match_accepted_witness :
    (Regex.char 'a').rmatchL ['a'] = true ∧
    ['a'] <+: (pyStrip "ab").data ∧
    (Regex.char 'a').rmatch "ab" = false ∧
    isOk (update_name cfgA User.new "ab") = true ∧
    isOk (update_password cfgA extW "S" User.new "ab") = true :=
  have h := prefix_match_accepted cfgA extW "S" User.new "ab" "ab" ['a'] ['a']
    (by decide) ⟨['b'], by decide⟩ (by decide) ⟨['b'], by decide⟩
  ⟨by decide, ⟨['b'], by decide⟩, by decide, h.1, h.2⟩

/-- C10: on success each operation rewrites exactly its designated
field(s) of the input user and leaves every other field as it was:
`update_name` the name, `update_password` and `reset_password` the
salt/hash pair, `update_email` the email, `update_rank` the access rank,
`bump_login_time` the last login time. -/
theorem ops_frame (cfg : Config) (ext : Ext) (salt : String) (now : Nat)
    (u au v : User) (name password email rank p s : String) :
    (update_name cfg u name = .ok v →
      v = { u with name := some (pyStrip name) }) ∧
    (update_password cfg ext salt u password = .ok v →
      v = { u with
            password_salt := some salt
            password_hash := some (ext.get_password_hash salt password) }) ∧
    (update_email ext u email = .ok v →
      v = { u with email := strip_or_none email }) ∧
    (update_rank cfg u rank au = .ok v →
      v = { u with access_rank := some (pyStrip rank) }) ∧
    (bump_login_time now u = { u with last_login_time := some now }) ∧
    (reset_password ext p s u =
      (p, { u with
            password_salt := some s
            password_hash := some (ext.get_password_hash s p) })) :=
  ⟨fun h => update_name_ok_eq h, fun h => update_password_ok_eq h,
    fun h => update_email_ok_eq h, fun h => (update_rank_ok_eq h).1,
    rfl, rfl⟩

/-- C10 witness: a successful `update_name` call changes exactly the
name field. -/
theorem ops_frame_witness :
    update_name cfgW User.new "alice" =
      .ok { User.new with name := some "alice" } ∧
    ({ User.new with name := some "alice" } : User) =
      { User.new with name := some (pyStrip "alice") } :=
  ⟨by decide,
    (ops_frame cfgW extW "S" 7 User.new auMod
      { User.new with name := some "alice" }
      "alice" "pw" "e" "r" "P" "S2").1 (by decide)⟩

end Szurubooru
